import Mathlib

/-!
Verification of the multi-protocol proxy parser/merger of
src/bot/bot/handlers/proxy_sync.py, as a shallow embedding in Lean.

Python strings are modelled as Lean strings (lists of unicode scalar
values), Python bytes as lists of naturals below 256, Python ints as Lean
integers, Python floats (timestamps) as rationals, and Python dicts as
insertion-ordered association lists.  Fallible Python code (functions that
return None or raise) is modelled with Option.
-/

namespace ProxySync

/-! ### Python string primitives -/

/-- Whitespace characters recognised by the Python str.strip() calls in the
source (ASCII subset; the strings flowing through this code never carry
non-ASCII whitespace). -/
def pySpace (c : Char) : Bool :=
  c = ' ' || c = '\t' || c = '\n' || c = '\r' || c.toNat = 11 || c.toNat = 12

/-- Python str.strip with an explicit set of characters to remove. -/
def stripCharsL (p : Char → Bool) (l : List Char) : List Char :=
  ((l.dropWhile p).reverse.dropWhile p).reverse

/-- Python str.strip() on strings. -/
def pyStrip (s : String) : String := ⟨stripCharsL pySpace s.data⟩

/-- Python str.strip(' -_|') used by the VIP name cleanup. -/
def stripSeps (s : String) : String :=
  ⟨stripCharsL (fun c => c = ' ' || c = '-' || c = '_' || c = '|') s.data⟩

/-- Python str.startswith on character lists. -/
def startsL (pat l : List Char) : Bool := pat.isPrefixOf l

/-- Python str.startswith. -/
def pyStarts (s pat : String) : Bool := startsL pat.data s.data

/-- One non-overlapping left-to-right replacement pass, Python str.replace
(only ever called with a non-empty pattern in the source).  The fuel is the
input length, so the zero-fuel fallback is never reached; structural
recursion on the fuel keeps the function kernel-reducible. -/
def replaceGo (pat new : List Char) : Nat → List Char → List Char
  | _, [] => []
  | 0, l => l
  | Nat.succ fuel, c :: rest =>
    if pat ≠ [] && pat.isPrefixOf (c :: rest) then
      new ++ replaceGo pat new fuel (List.drop (pat.length - 1) rest)
    else
      c :: replaceGo pat new fuel rest

/-- Python str.replace on strings. -/
def pyReplace (s pat new : String) : String :=
  ⟨replaceGo pat.data new.data s.data.length s.data⟩

/-- Python substring membership test (the `in` operator on str). -/
def containsL (pat : List Char) : List Char → Bool
  | [] => pat = []
  | c :: rest => pat.isPrefixOf (c :: rest) || containsL pat rest

/-- Python `pat in s`. -/
def pyIn (pat s : String) : Bool := containsL pat.data s.data

/-- ASCII lower-casing, Python str.lower on the ASCII strings this code
compares (non-ASCII characters are left unchanged). -/
def lcChar (c : Char) : Char :=
  if 'A' ≤ c && c ≤ 'Z' then Char.ofNat (c.toNat + 32) else c

/-- Python str.lower. -/
def pyLower (s : String) : String := ⟨s.data.map lcChar⟩

/-- Python s.split(sep, 1) when sep is a single character: the part before
the first occurrence and the part after, or none when sep does not occur. -/
def splitFirstChar (sep : Char) : List Char → Option (List Char × List Char)
  | [] => none
  | c :: rest =>
    if c = sep then some ([], rest)
    else match splitFirstChar sep rest with
      | some (a, b) => some (c :: a, b)
      | none => none

/-- Python s.rsplit(sep, 1) for a single-character sep: the part before the
last occurrence and the part after, or none when sep does not occur. -/
def rsplitLastChar (sep : Char) (l : List Char) : Option (List Char × List Char) :=
  match splitFirstChar sep l.reverse with
  | some (a, b) => some (b.reverse, a.reverse)
  | none => none

/-- Python s.split(sep, 1) for a multi-character separator. -/
def splitFirstSeq (sep : List Char) : List Char → Option (List Char × List Char)
  | [] => none
  | c :: rest =>
    if sep.isPrefixOf (c :: rest) then some ([], List.drop sep.length (c :: rest))
    else match splitFirstSeq sep rest with
      | some (a, b) => some (c :: a, b)
      | none => none

/-- Python s.split(sep) with a single-character separator (no limit):
always returns at least one piece, empty pieces included. -/
def splitOnChar (sep : Char) : List Char → List (List Char)
  | [] => [[]]
  | c :: rest =>
    if c = sep then [] :: splitOnChar sep rest
    else match splitOnChar sep rest with
      | h :: t => (c :: h) :: t
      | [] => [[c]]

/-- Decimal digit value. -/
def digVal (c : Char) : Nat := c.toNat - '0'.toNat

/-- Digit-run parser for Python int(): underscores must sit between two
digits. The accumulator carries the value parsed so far. -/
def pyIntDigits (acc : Nat) : List Char → Option Nat
  | [] => some acc
  | '_' :: d :: rest =>
    if d.isDigit then pyIntDigits (acc * 10 + digVal d) rest else none
  | '_' :: [] => none
  | d :: rest =>
    if d.isDigit then pyIntDigits (acc * 10 + digVal d) rest else none

/-- Python int(str): optional surrounding whitespace, optional sign, a
non-empty digit run (with embedded underscores); none models ValueError. -/
def pyInt (s : String) : Option Int :=
  match stripCharsL pySpace s.data with
  | '+' :: d :: rest =>
    if d.isDigit then (pyIntDigits (digVal d) rest).map Int.ofNat else none
  | '-' :: d :: rest =>
    if d.isDigit then (pyIntDigits (digVal d) rest).map (fun n => -(n : Int)) else none
  | d :: rest =>
    if d.isDigit then (pyIntDigits (digVal d) rest).map Int.ofNat else none
  | [] => none

/-! ### Python base64 (binascii.a2b_base64, lenient mode) -/

/-- Value of a character in the standard base64 alphabet. -/
def b64Val (c : Char) : Option Nat :=
  if 'A' ≤ c && c ≤ 'Z' then some (c.toNat - 'A'.toNat)
  else if 'a' ≤ c && c ≤ 'z' then some (c.toNat - 'a'.toNat + 26)
  else if '0' ≤ c && c ≤ '9' then some (c.toNat - '0'.toNat + 52)
  else if c = '+' then some 62
  else if c = '/' then some 63
  else none

/-- CPython binascii.a2b_base64 in lenient (validate=False) mode: characters
outside the alphabet are discarded; a pad character after at least two data
characters of the current quad, completing it to four positions, ends the
decode; a leftover partial quad at the end is an error (none). State:
quad position, pending bits, consecutive-pad count, reversed output. -/
def a2bGo (qp leftchar pads : Nat) (acc : List Nat) : List Char → Option (List Nat)
  | [] => if qp = 0 then some acc.reverse else none
  | c :: rest =>
    if c = '=' then
      if qp ≥ 2 then
        if qp + (pads + 1) ≥ 4 then some acc.reverse
        else a2bGo qp leftchar (pads + 1) acc rest
      else a2bGo qp leftchar pads acc rest
    else
      match b64Val c with
      | none => a2bGo qp leftchar pads acc rest
      | some v =>
        match qp with
        | 0 => a2bGo 1 v 0 acc rest
        | 1 => a2bGo 2 (v % 16) 0 ((leftchar * 4 + v / 16) :: acc) rest
        | 2 => a2bGo 3 (v % 4) 0 ((leftchar * 16 + v / 4) :: acc) rest
        | _ => a2bGo 0 0 0 ((leftchar * 64 + v) :: acc) rest

/-- Python base64.b64decode on a str argument: implicit ASCII encoding
(failure on non-ASCII), then lenient a2b_base64. -/
def pyB64Decode (l : List Char) : Option (List Nat) :=
  if l.all (fun c => c.toNat ≤ 127) then a2bGo 0 0 0 [] l else none

/-- The byte translation done by base64.urlsafe_b64decode before decoding. -/
def urlsafeTr (c : Char) : Char :=
  if c = '-' then '+' else if c = '_' then '/' else c

/-- Python base64.urlsafe_b64decode. -/
def pyUrlsafeB64Decode (l : List Char) : Option (List Nat) :=
  pyB64Decode (l.map urlsafeTr)

/-! ### UTF-8 decoding (bytes.decode, strict and replace error handlers) -/

/-- Is a byte a UTF-8 continuation byte. -/
def utf8Cont (b : Nat) : Bool := 128 ≤ b && b ≤ 191

/-- Lower bound of the first continuation byte of a 3-byte sequence. -/
def u3lo (b : Nat) : Nat := if b = 224 then 160 else 128

/-- Upper bound of the first continuation byte of a 3-byte sequence
(excludes surrogates for leader 0xED). -/
def u3hi (b : Nat) : Nat := if b = 237 then 159 else 191

/-- Lower bound of the first continuation byte of a 4-byte sequence. -/
def u4lo (b : Nat) : Nat := if b = 240 then 144 else 128

/-- Upper bound of the first continuation byte of a 4-byte sequence. -/
def u4hi (b : Nat) : Nat := if b = 244 then 143 else 191

/-- Strict UTF-8 decoding (Python bytes.decode('utf-8')); rejects overlong
encodings, surrogates and truncated sequences, like CPython. -/
def utf8DecodeL : List Nat → Option (List Char)
  | [] => some []
  | b :: bs =>
    if b ≤ 127 then
      (utf8DecodeL bs).map (fun t => Char.ofNat b :: t)
    else if b < 194 then none
    else if b ≤ 223 then
      match bs with
      | c1 :: bs1 =>
        if utf8Cont c1 then
          (utf8DecodeL bs1).map (fun t => Char.ofNat ((b - 192) * 64 + (c1 - 128)) :: t)
        else none
      | [] => none
    else if b ≤ 239 then
      match bs with
      | c1 :: c2 :: bs2 =>
        if u3lo b ≤ c1 && c1 ≤ u3hi b && utf8Cont c2 then
          (utf8DecodeL bs2).map
            (fun t => Char.ofNat ((b - 224) * 4096 + (c1 - 128) * 64 + (c2 - 128)) :: t)
        else none
      | _ => none
    else if b ≤ 244 then
      match bs with
      | c1 :: c2 :: c3 :: bs3 =>
        if u4lo b ≤ c1 && c1 ≤ u4hi b && utf8Cont c2 && utf8Cont c3 then
          (utf8DecodeL bs3).map
            (fun t => Char.ofNat
              ((b - 240) * 262144 + (c1 - 128) * 4096 + (c2 - 128) * 64 + (c3 - 128)) :: t)
        else none
      | _ => none
    else none

/-- bytes.decode('utf-8') producing a string. -/
def utf8DecodeStr (bs : List Nat) : Option String := (utf8DecodeL bs).map List.asString

/-- UTF-8 decoding with errors='replace': each maximal invalid subpart is
replaced by U+FFFD, following CPython's handler. -/
def utf8ReplaceL : List Nat → List Char
  | [] => []
  | b :: bs =>
    if b ≤ 127 then Char.ofNat b :: utf8ReplaceL bs
    else if b < 194 then '�' :: utf8ReplaceL bs
    else if b ≤ 223 then
      match bs with
      | c1 :: bs1 =>
        if utf8Cont c1 then Char.ofNat ((b - 192) * 64 + (c1 - 128)) :: utf8ReplaceL bs1
        else '�' :: utf8ReplaceL (c1 :: bs1)
      | [] => ['�']
    else if b ≤ 239 then
      match bs with
      | c1 :: rest =>
        if u3lo b ≤ c1 && c1 ≤ u3hi b then
          match rest with
          | c2 :: bs2 =>
            if utf8Cont c2 then
              Char.ofNat ((b - 224) * 4096 + (c1 - 128) * 64 + (c2 - 128)) :: utf8ReplaceL bs2
            else '�' :: utf8ReplaceL (c2 :: bs2)
          | [] => ['�']
        else '�' :: utf8ReplaceL (c1 :: rest)
      | [] => ['�']
    else if b ≤ 244 then
      match bs with
      | c1 :: rest =>
        if u4lo b ≤ c1 && c1 ≤ u4hi b then
          match rest with
          | c2 :: rest2 =>
            if utf8Cont c2 then
              match rest2 with
              | c3 :: bs3 =>
                if utf8Cont c3 then
                  Char.ofNat ((b - 240) * 262144 + (c1 - 128) * 4096
                    + (c2 - 128) * 64 + (c3 - 128)) :: utf8ReplaceL bs3
                else '�' :: utf8ReplaceL (c3 :: bs3)
              | [] => ['�']
            else '�' :: utf8ReplaceL (c2 :: rest2)
          | [] => ['�']
        else '�' :: utf8ReplaceL (c1 :: rest)
      | [] => ['�']
    else '�' :: utf8ReplaceL bs

/-! ### urllib.parse.unquote (percent-decoding, errors='replace') -/

/-- Hexadecimal digit value (both cases), as accepted by unquote; written
over raw character codes (48-57 digits, 97-102 lower, 65-70 upper). -/
def hexVal (c : Char) : Option Nat :=
  match c.toNat with
  | n =>
    if 48 ≤ n && n ≤ 57 then some (n - 48)
    else if 97 ≤ n && n ≤ 102 then some (n - 87)
    else if 65 ≤ n && n ≤ 70 then some (n - 55)
    else none

/-- Percent-unescaping of an ASCII run to bytes (urllib unquote_to_bytes):
a percent sign followed by two hex digits becomes one byte, any other
percent sign stays literal. -/
def pctBytes : List Char → List Nat
  | [] => []
  | '%' :: h1 :: h2 :: rest =>
    match hexVal h1, hexVal h2 with
    | some a, some b => (a * 16 + b) :: pctBytes rest
    | _, _ => 37 :: pctBytes (h1 :: h2 :: rest)
  | '%' :: rest => 37 :: pctBytes rest
  | c :: rest => c.toNat :: pctBytes rest

/-- Is a character ASCII. -/
def isAsc (c : Char) : Bool := c.toNat ≤ 127


/-- urllib.parse.unquote with the utf-8/replace defaults: maximal ASCII runs
are percent-unescaped to bytes and decoded with the replace handler;
non-ASCII characters pass through untouched.  The fuel is the input length
(the zero-fuel fallback is never reached), keeping the recursion structural
and kernel-reducible. -/
def unquoteGo : Nat → List Char → List Char
  | _, [] => []
  | 0, l => l
  | Nat.succ fuel, c :: rest =>
    if isAsc c then
      utf8ReplaceL (pctBytes (c :: rest.takeWhile isAsc))
        ++ unquoteGo fuel (rest.dropWhile isAsc)
    else c :: unquoteGo fuel rest

/-- urllib.parse.unquote on strings. -/
def pyUnquote (s : String) : String := ⟨unquoteGo s.data.length s.data⟩

/-! ### MultiProtocolParser name cleanup and base64 normalizer -/

/-- The VIP casing variants removed by MultiProtocolParser._clean_vip_chars,
in the order the source lists them. -/
def vipPats : List String := ["VIP", "vip", "Vip", "ViP", "vIp", "viP", "vIP", "VIp"]

/-- The intermediate value of _clean_vip_chars: all VIP casing variants
deleted by sequential replaces, then surrounding separators stripped. -/
def vipCleaned (name : String) : String :=
  stripSeps (vipPats.foldl (fun acc p => pyReplace acc p "") name)

/-- MultiProtocolParser._clean_vip_chars: delete every VIP casing variant,
strip surrounding separators, and fall back to the original name when the
result is empty (an empty input also comes straight back). -/
def cleanVip (name : String) : String :=
  if name = "" then name
  else if vipCleaned name ≠ "" then vipCleaned name
  else name

/-- The protocol identifiers try_base64_decode looks for in decoded text. -/
def protoIdents : List String :=
  ["ss://", "ssr://", "vmess://", "vless://", "trojan://", "hy2://", "hysteria2://", "proxies:"]

/-- contains_protocol_identifier: any identifier occurs in the lower-cased
text. -/
def containsProtoIdent (s : String) : Bool :=
  protoIdents.any (fun p => pyIn p (pyLower s))

/-- One decode attempt of try_base64_decode: decode to bytes, decode those
as UTF-8, accept (stripped) only if a protocol identifier is present. -/
def b64Attempt (f : List Char → Option (List Nat)) (oc : List Char) : Option String :=
  match f oc with
  | none => none
  | some bs =>
    match utf8DecodeStr bs with
    | none => none
    | some d => if containsProtoIdent d then some (pyStrip d) else none

/-- The four decode attempts of try_base64_decode, in source order:
standard, URL-safe with two pads appended, standard with two pads appended,
standard with newlines and carriage returns removed. -/
def firstQualify (oc : List Char) : Option String :=
  (b64Attempt pyB64Decode oc).orElse fun _ =>
  (b64Attempt pyUrlsafeB64Decode (oc ++ ['=', '='])).orElse fun _ =>
  (b64Attempt pyB64Decode (oc ++ ['=', '='])).orElse fun _ =>
  b64Attempt pyB64Decode (oc.filter (fun c => c ≠ '\n' && c ≠ '\r'))

/-- MultiProtocolParser.try_base64_decode: the first qualifying attempt's
text, otherwise the stripped input. -/
def tryB64Decode (content : String) : String :=
  let oc := pyStrip content
  match firstQualify oc.data with
  | some d => d
  | none => oc

/-! ### MultiProtocolParser.detect_protocol -/

/-- The protocol enum of the source. -/
inductive ProtocolType where
  | ss | ssr | vmess | trojan | vless | hy2 | yaml | unknown
deriving DecidableEq, Repr

/-- Word characters for the regex word boundary (ASCII alphanumerics and
underscore; the scanned text is ASCII in every use). -/
def wordChar (c : Char) : Bool := c.isAlphanum || c = '_'

/-- Case-insensitive literal match of a pattern at the head of the text. -/
def matchCI (pat l : List Char) : Bool :=
  (pat.map lcChar).isPrefixOf (l.map lcChar)

/-- Occurrences of a scheme literal with a word boundary on its left, as
counted by re.finditer with a word-boundary-anchored, case-insensitive
pattern (the schemes counted can never overlap). prev is the character
just before the current position. -/
def countOccGo (pat : List Char) (prev : Option Char) : List Char → Nat
  | [] => 0
  | c :: rest =>
    let boundary := match prev with
      | none => true
      | some p => !wordChar p
    (if boundary && matchCI pat (c :: rest) then 1 else 0) + countOccGo pat (some c) rest

/-- Boundary-anchored case-insensitive occurrence count of a scheme. -/
def countOcc (pat s : String) : Nat := countOccGo pat.data none s.data

/-- The six protocol occurrence counts of detect_protocol's mixed-content
scan; the ss count subtracts the matches of vless, vmess and ssr and can
go negative (Python int arithmetic). -/
def schemeCounts (s : String) : Int × Int × Int × Int × Int × Int :=
  let cV : Int := countOcc "vless://" s
  let cM : Int := countOcc "vmess://" s
  let cT : Int := countOcc "trojan://" s
  let cR : Int := countOcc "ssr://" s
  let cS : Int := (countOcc "ss://" s : Int) - (cV + cM + cR)
  let cH : Int := countOcc "hy2://" s + countOcc "hysteria2://" s
  (cV, cM, cT, cR, cS, cH)

/-- The YAML heuristic of detect_protocol. -/
def yamlHeur (s : String) : Bool :=
  pyIn "proxies:" s
    || (pyStarts s "-" && pyIn "server:" s)
    || (pyIn "name:" s && pyIn "server:" s && pyIn "port:" s)

/-- The scheme-prefix match at the start of the text, in source order. -/
def prefixDetect (s : String) : Option ProtocolType :=
  if pyStarts s "vless://" then some .vless
  else if pyStarts s "vmess://" then some .vmess
  else if pyStarts s "trojan://" then some .trojan
  else if pyStarts s "hy2://" || pyStarts s "hysteria2://" then some .hy2
  else if pyStarts s "ssr://" then some .ssr
  else if pyStarts s "ss://" then some .ss
  else none

/-- The selection the mixed-content scan applies to the six counts: when
the maximum is positive, the first protocol in the fixed priority order
whose count is positive; otherwise unknown (mirroring the loop's
fall-through). -/
def freqSelect (cV cM cT cR cS cH : Int) : ProtocolType :=
  let maxCount := max cV (max cM (max cT (max cR (max cS cH))))
  if maxCount > 0 then
    if cV > 0 then .vless
    else if cM > 0 then .vmess
    else if cT > 0 then .trojan
    else if cR > 0 then .ssr
    else if cS > 0 then .ss
    else if cH > 0 then .hy2
    else .unknown
  else .unknown

/-- The mixed-content frequency scan of detect_protocol. -/
def freqDetect (s : String) : ProtocolType :=
  match schemeCounts s with
  | (cV, cM, cT, cR, cS, cH) => freqSelect cV cM cT cR cS cH

/-- The body of detect_protocol after base64 normalization and stripping. -/
def detectBody (ctc : String) : ProtocolType :=
  match prefixDetect ctc with
  | some p => p
  | none => if yamlHeur ctc then .yaml else freqDetect ctc

/-- MultiProtocolParser.detect_protocol. -/
def detectProtocol (content : String) : ProtocolType :=
  detectBody (pyStrip (tryB64Decode content))

/-! ### MultiProtocolParser.parse_ss_url -/

/-- The record parse_ss_url builds (its result dict has exactly these keys,
with type fixed to ss). -/
structure SSConf where
  name : String
  server : String
  port : Int
  cipher : String
  password : String
deriving DecidableEq, Repr

/-- Decode a char list as base64 then as UTF-8 text. -/
def b64ToStr (f : List Char → Option (List Nat)) (l : List Char) : Option String :=
  match f l with
  | none => none
  | some bs => utf8DecodeStr bs

/-- MultiProtocolParser.parse_ss_url: strip the scheme, take the name from
the first #fragment (percent-decoded, VIP-cleaned; default SS节点), base64
decode the whole remaining body with two pads appended (standard first,
then URL-safe), then split method:password@server:port. -/
def parseSsUrl (url : String) : Option SSConf :=
  if !pyStarts url "ss://" then none
  else
    let content := url.data.drop 5
    let (core, name) :=
      match splitFirstChar '#' content with
      | some (a, frag) => (a, cleanVip (pyUnquote ⟨frag⟩))
      | none => (content, "SS节点")
    let decoded? :=
      match b64ToStr pyB64Decode (core ++ ['=', '=']) with
      | some d => some d
      | none => b64ToStr pyUrlsafeB64Decode (core ++ ['=', '='])
    match decoded? with
    | none => none
    | some decoded =>
      match splitFirstChar '@' decoded.data with
      | none => none
      | some (mp, sp) =>
        match splitFirstChar ':' mp with
        | none => none
        | some (method, password) =>
          match rsplitLastChar ':' sp with
          | none => none
          | some (server, portStr) =>
            match pyInt ⟨portStr⟩ with
            | none => none
            | some port =>
              some { name := name, server := ⟨server⟩, port := port,
                     cipher := ⟨method⟩, password := ⟨password⟩ }

/-! ### MultiProtocolParser.parse_ssr_url -/

/-- The record parse_ssr_url builds (type fixed to ssr). -/
structure SSRConf where
  name : String
  server : String
  port : Int
  cipher : String
  password : String
  protoName : String
  obfs : String
  protoParam : String
  obfsParam : String
  group : String
deriving DecidableEq, Repr

/-- Association-list upsert for string-keyed Python dicts: later assignment
to an existing key replaces the value in place, a new key is appended. -/
def dictPut (l : List (String × String)) (k v : String) : List (String × String) :=
  match l with
  | [] => [(k, v)]
  | (k0, v0) :: rest => if k0 = k then (k, v) :: rest else (k0, v0) :: dictPut rest k v

/-- Python dict.get with a default. -/
def dictGetD (l : List (String × String)) (k d : String) : String :=
  match l with
  | [] => d
  | (k0, v0) :: rest => if k0 = k then v0 else dictGetD rest k d

/-- The query-parameter dict of parse_ssr_url: ampersand-separated
key=value_b64 pairs, values URL-safe base64 decoded with two pads appended
and kept raw when that decode fails; pairs without an equals sign dropped. -/
def ssrParams (part : List Char) : List (String × String) :=
  (splitOnChar '&' part).foldl
    (fun acc pair =>
      match splitFirstChar '=' pair with
      | none => acc
      | some (k, v) =>
        match b64ToStr pyUrlsafeB64Decode (v ++ ['=', '=']) with
        | some dv => dictPut acc ⟨k⟩ dv
        | none => dictPut acc ⟨k⟩ ⟨v⟩)
    []

/-- MultiProtocolParser.parse_ssr_url: strip the scheme, base64 decode the
whole remainder (URL-safe first, then standard, both with two pads
appended), split off an optional query on the first slash-question-mark,
require at least six colon components, base64 decode the password, and take
the name from the remarks parameter (default SSR节点, VIP-cleaned). -/
def parseSsrUrl (url : String) : Option SSRConf :=
  if !pyStarts url "ssr://" then none
  else
    let content := url.data.drop 6
    let decoded? :=
      match b64ToStr pyUrlsafeB64Decode (content ++ ['=', '=']) with
      | some d => some d
      | none => b64ToStr pyB64Decode (content ++ ['=', '='])
    match decoded? with
    | none => none
    | some decoded =>
      let (mainPart, paramsPart) :=
        match splitFirstSeq ['/', '?'] decoded.data with
        | some (m, p) => (m, p)
        | none => (decoded.data, [])
      let parts := splitOnChar ':' mainPart
      if parts.length < 6 then none
      else
        let server := (parts.get? 0).getD []
        let portStr := (parts.get? 1).getD []
        let protoName := (parts.get? 2).getD []
        let method := (parts.get? 3).getD []
        let obfs := (parts.get? 4).getD []
        let passwordB64 := (parts.get? 5).getD []
        match pyInt ⟨portStr⟩ with
        | none => none
        | some port =>
          match b64ToStr pyUrlsafeB64Decode (passwordB64 ++ ['=', '=']) with
          | none => none
          | some password =>
            let params := ssrParams paramsPart
            some { name := cleanVip (dictGetD params "remarks" "SSR节点"),
                   server := ⟨server⟩, port := port, cipher := ⟨method⟩,
                   password := password, protoName := ⟨protoName⟩,
                   obfs := ⟨obfs⟩,
                   protoParam := dictGetD params "protoparam" "",
                   obfsParam := dictGetD params "obfsparam" "",
                   group := dictGetD params "group" "" }

/-! ### ProxyInfo, ProxyNameGenerator and ProxyMerger -/

/-- Values stored in a ProxyInfo.data dict (the protocol-specific payload;
name entries are strings, and Python None can be written into the dict by
the merger when a candidate has no name). -/
inductive PyVal where
  | str (s : String)
  | int (n : Int)
  | bool (b : Bool)
  | none
deriving DecidableEq, Repr

/-- A Python dict payload: insertion-ordered association list. -/
abbrev PyDict := List (String × PyVal)

/-- Python truthiness of an optional string (None and the empty string are
falsy). -/
def truthyStr : Option String → Bool
  | Option.none => false
  | some s => s ≠ ""

/-- key in dict. -/
def pdHasKey (k : String) : PyDict → Bool
  | [] => false
  | (k0, _) :: rest => k0 = k || pdHasKey k rest

/-- dict[k] = v: replace in place or append. -/
def pdPut (k : String) (v : PyVal) : PyDict → PyDict
  | [] => [(k, v)]
  | (k0, v0) :: rest => if k0 = k then (k, v) :: rest else (k0, v0) :: pdPut k v rest

/-- The ProxyInfo dataclass. -/
structure ProxyInfo where
  ip : String
  port : Int
  countryCode : Option String := Option.none
  name : Option String := Option.none
  data : Option PyDict := Option.none
  protocol : Option ProtocolType := Option.none
  source : Option String := Option.none
deriving DecidableEq, Repr

/-- ProxyInfo.unique_key. -/
def ProxyInfo.uniqueKey (p : ProxyInfo) : String :=
  p.ip ++ ":" ++ toString p.port

/-- ProxyNameGenerator.generate_name: fills the country code from the
(rate-limited, cached) country provider when it is falsy; returns the
updated record together with the generated display name.  The provider is
an explicit parameter of the embedding. -/
def generateName (lookup : String → Option String) (p : ProxyInfo) :
    ProxyInfo × String :=
  let p' := if truthyStr p.countryCode then p else { p with countryCode := lookup p.ip }
  let country := match p'.countryCode with
    | some s => if s = "" then "未知" else s
    | Option.none => "未知"
  (p', country ++ "|" ++ p'.uniqueKey)

/-- The stats dict merge_proxies returns. -/
structure MergeStats where
  added : Nat := 0
  updated : Nat := 0
  totalNewIncoming : Nat := 0
  byProtocol : List (String × Nat) := []
  bySource : List (String × Nat) := []
deriving DecidableEq, Repr

/-- Counter-dict increment: stats[k] = stats.get(k, 0) + 1. -/
def bumpCount (k : String) : List (String × Nat) → List (String × Nat)
  | [] => [(k, 1)]
  | (k0, n) :: rest => if k0 = k then (k, n + 1) :: rest else (k0, n) :: bumpCount k rest

/-- The enum's value string, used as the by-protocol stats key. -/
def ProtocolType.valueStr : ProtocolType → String
  | .ss => "ss" | .ssr => "ssr" | .vmess => "vmess" | .trojan => "trojan"
  | .vless => "vless" | .hy2 => "hy2" | .yaml => "yaml" | .unknown => "unknown"

/-- Seed map of merge_proxies: a dict comprehension over the existing list,
so a later duplicate key overwrites the value but keeps the first
occurrence's position. -/
def seedMap : List ProxyInfo → List ProxyInfo :=
  List.foldl (fun m p => upsert m p) []
where
  /-- dict assignment m[p.unique_key] = p on the ordered-list model. -/
  upsert : List ProxyInfo → ProxyInfo → List ProxyInfo
    | [], p => [p]
    | q :: rest, p =>
      if q.uniqueKey = p.uniqueKey then p :: rest else q :: upsert rest p

/-- In-place value update at a key (mutation of the stored object). -/
def modifyAt (k : String) (f : ProxyInfo → ProxyInfo) : List ProxyInfo → List ProxyInfo
  | [] => []
  | q :: rest => if q.uniqueKey = k then f q :: rest else q :: modifyAt k f rest

/-- Membership of a key in the map. -/
def hasKey (k : String) : List ProxyInfo → Bool
  | [] => false
  | q :: rest => q.uniqueKey = k || hasKey k rest

/-- First stored record at a key. -/
def findKey (k : String) : List ProxyInfo → Option ProxyInfo
  | [] => Option.none
  | q :: rest => if q.uniqueKey = k then some q else findKey k rest

/-- The update merge_proxies applies to an already-present record: every
field is overwritten with the (country-resolved) candidate's, except that a
truthy original name is kept, and then also written into the data dict when
that dict is truthy and has a name entry.  A falsy original name simply
stays (the candidate's generated name is discarded by the source). -/
def mergeUpdate (cand : ProxyInfo) (old : ProxyInfo) : ProxyInfo :=
  let base : ProxyInfo :=
    { ip := cand.ip, port := cand.port, countryCode := cand.countryCode,
      protocol := cand.protocol, source := cand.source, data := cand.data,
      name := old.name }
  match old.name with
  | some n =>
    if n ≠ "" then
      { base with data :=
          match base.data with
          | some d => if d ≠ [] && pdHasKey "name" d then some (pdPut "name" (PyVal.str n) d) else some d
          | Option.none => Option.none }
    else base
  | Option.none => base

/-- The record appended for a brand-new key: country resolved, and the
candidate's own (possibly missing) name copied into a truthy data dict. -/
def mergeInsert (cand : ProxyInfo) : ProxyInfo :=
  match cand.data with
  | some d =>
    if d ≠ [] then
      { cand with data := some (pdPut "name"
          (match cand.name with | some n => PyVal.str n | Option.none => PyVal.none) d) }
    else cand
  | Option.none => cand

/-- One loop iteration of ProxyMerger.merge_proxies. -/
def mergeStep (lookup : String → Option String)
    (st : List ProxyInfo × MergeStats) (candidate : ProxyInfo) :
    List ProxyInfo × MergeStats :=
  let (m, stats) := st
  let stats :=
    match candidate.protocol with
    | some p => { stats with byProtocol := bumpCount p.valueStr stats.byProtocol }
    | Option.none => stats
  let stats :=
    if truthyStr candidate.source then
      { stats with bySource := bumpCount (candidate.source.getD "") stats.bySource }
    else stats
  let k := candidate.uniqueKey
  let cand := (generateName lookup candidate).1
  if hasKey k m then
    (modifyAt k (mergeUpdate cand) m, { stats with updated := stats.updated + 1 })
  else
    (m ++ [mergeInsert cand], { stats with added := stats.added + 1 })

/-- ProxyMerger.merge_proxies: seed the key map with the existing records,
fold the incoming list through mergeStep, and return the map's value list
with the stats. -/
def mergeProxies (lookup : String → Option String)
    (existing new : List ProxyInfo) : List ProxyInfo × MergeStats :=
  (new.foldl (mergeStep lookup)
    (seedMap existing, { totalNewIncoming := new.length }))

/-- The unique keys of a record list, in order. -/
def keysOf (m : List ProxyInfo) : List String := m.map ProxyInfo.uniqueKey

/-! ### ProxySource and ProxySourceManager.update_source_stats -/

/-- The ProxySource dataclass (timestamps as rationals; the persistence
side effects of the manager are external collaborators). -/
structure ProxySource where
  name : String
  url : String
  enabled : Bool := true
  protocolHint : Option ProtocolType := Option.none
  successCount : Nat := 0
  failCount : Nat := 0
  lastSync : Option ℚ := Option.none
  lastProxyCount : Nat := 0
  syncIntervalMinutes : Nat := 60
  nextSyncTimestamp : Option ℚ := Option.none
deriving DecidableEq

/-- The manager's registry: name-keyed insertion-ordered dict of sources. -/
abbrev SourceReg := List ProxySource

/-- Find a source by name (ProxySourceManager.get_source_by_name). -/
def findSource (name : String) : SourceReg → Option ProxySource
  | [] => Option.none
  | s :: rest => if s.name = name then some s else findSource name rest

/-- ProxySourceManager.update_source_stats: when the name is registered,
bump the success or failure counter (and on success the last proxy count),
set last_sync to the current time and reschedule next_sync_timestamp to
now + sync_interval_minutes * 60, success or not.  The two time.time()
calls of the body are modelled as the single instant now. -/
def updateSourceStats (name : String) (success : Bool) (proxyCount : Nat)
    (now : ℚ) : SourceReg → SourceReg
  | [] => []
  | s :: rest =>
    if s.name = name then
      (let s := if success
        then { s with successCount := s.successCount + 1, lastProxyCount := proxyCount }
        else { s with failCount := s.failCount + 1 }
      { s with lastSync := some now,
               nextSyncTimestamp := some (now + s.syncIntervalMinutes * 60) }) :: rest
    else s :: updateSourceStats name success proxyCount now rest

/-! ### Shared lemmas -/

/-- Each merge iteration counts its candidate exactly once, as added or as
updated. -/
theorem mergeStep_added_updated (lookup : String → Option String)
    (m : List ProxyInfo) (st : MergeStats) (c : ProxyInfo) :
    (mergeStep lookup (m, st) c).2.added + (mergeStep lookup (m, st) c).2.updated
      = st.added + st.updated + 1 := by
  unfold mergeStep
  cases hp : c.protocol <;> by_cases hs : truthyStr c.source <;>
    by_cases hk : hasKey c.uniqueKey m <;> simp [hp, hs, hk] <;> omega

/-- Merge iterations never touch the total-incoming counter. -/
theorem mergeStep_total (lookup : String → Option String)
    (m : List ProxyInfo) (st : MergeStats) (c : ProxyInfo) :
    (mergeStep lookup (m, st) c).2.totalNewIncoming = st.totalNewIncoming := by
  unfold mergeStep
  cases hp : c.protocol <;> by_cases hs : truthyStr c.source <;>
    by_cases hk : hasKey c.uniqueKey m <;> simp [hp, hs, hk]

/-- Folding the merge over a batch adds the batch length to the sum of the
added and updated counters. -/
theorem mergeFold_added_updated (lookup : String → Option String) :
    ∀ (l : List ProxyInfo) (m : List ProxyInfo) (st : MergeStats),
    (l.foldl (mergeStep lookup) (m, st)).2.added
        + (l.foldl (mergeStep lookup) (m, st)).2.updated
      = st.added + st.updated + l.length
  | [], m, st => by simp
  | c :: t, m, st => by
    rw [List.foldl_cons]
    have h1 := mergeStep_added_updated lookup m st c
    have h2 := mergeFold_added_updated lookup t (mergeStep lookup (m, st) c).1
      (mergeStep lookup (m, st) c).2
    rw [Prod.mk.eta] at h2
    simp only [List.length_cons]
    omega

/-- Folding the merge preserves the total-incoming counter. -/
theorem mergeFold_total (lookup : String → Option String) :
    ∀ (l : List ProxyInfo) (m : List ProxyInfo) (st : MergeStats),
    (l.foldl (mergeStep lookup) (m, st)).2.totalNewIncoming = st.totalNewIncoming
  | [], _, _ => rfl
  | c :: t, m, st => by
    rw [List.foldl_cons]
    have h1 := mergeStep_total lookup m st c
    have h2 := mergeFold_total lookup t (mergeStep lookup (m, st) c).1
      (mergeStep lookup (m, st) c).2
    rw [Prod.mk.eta] at h2
    rw [h2, h1]

/-- The maximum gate of the frequency selection is redundant: the selection
always returns the first protocol in the priority order whose count is
positive, and unknown when no count is positive. -/
theorem freqSelect_eq_chain (a b c d e f : Int) :
    freqSelect a b c d e f =
      (if 0 < a then ProtocolType.vless
       else if 0 < b then ProtocolType.vmess
       else if 0 < c then ProtocolType.trojan
       else if 0 < d then ProtocolType.ssr
       else if 0 < e then ProtocolType.ss
       else if 0 < f then ProtocolType.hy2
       else ProtocolType.unknown) := by
  unfold freqSelect
  have hg : (0 < max a (max b (max c (max d (max e f))))) ↔
      (0 < a ∨ 0 < b ∨ 0 < c ∨ 0 < d ∨ 0 < e ∨ 0 < f) := by
    simp [lt_max_iff]
  by_cases h1 : 0 < a
  · simp only [gt_iff_lt, hg, if_pos (Or.inl h1), if_pos h1]
  · by_cases h2 : 0 < b
    · simp only [gt_iff_lt, hg, if_pos (Or.inr (Or.inl h2)), if_neg h1, if_pos h2]
    · by_cases h3 : 0 < c
      · simp only [gt_iff_lt, hg, if_pos (Or.inr (Or.inr (Or.inl h3))), if_neg h1,
          if_neg h2, if_pos h3]
      · by_cases h4 : 0 < d
        · simp only [gt_iff_lt, hg, if_pos (Or.inr (Or.inr (Or.inr (Or.inl h4)))),
            if_neg h1, if_neg h2, if_neg h3, if_pos h4]
        · by_cases h5 : 0 < e
          · simp only [gt_iff_lt, hg,
              if_pos (Or.inr (Or.inr (Or.inr (Or.inr (Or.inl h5))))),
              if_neg h1, if_neg h2, if_neg h3, if_neg h4, if_pos h5]
          · by_cases h6 : 0 < f
            · simp only [gt_iff_lt, hg,
                if_pos (Or.inr (Or.inr (Or.inr (Or.inr (Or.inr h6))))),
                if_neg h1, if_neg h2, if_neg h3, if_neg h4, if_neg h5, if_pos h6]
            · have hng : ¬(0 < a ∨ 0 < b ∨ 0 < c ∨ 0 < d ∨ 0 < e ∨ 0 < f) := by
                simp [h1, h2, h3, h4, h5, h6]
              simp only [gt_iff_lt, hg, if_neg hng, if_neg h1, if_neg h2, if_neg h3,
                if_neg h4, if_neg h5, if_neg h6]

/-- Splitting at the first occurrence of a separator that is absent from
the left part finds exactly that left part. -/
theorem splitFirstChar_append (sep : Char) (a b : List Char) (ha : sep ∉ a) :
    splitFirstChar sep (a ++ sep :: b) = some (a, b) := by
  induction a with
  | nil => simp [splitFirstChar]
  | cons c rest ih =>
    have hc : ¬c = sep := fun h => ha (h ▸ List.mem_cons_self c rest)
    have ih' := ih (fun h => ha (List.mem_cons_of_mem c h))
    simp only [List.cons_append, splitFirstChar, if_neg hc, List.append_eq, ih']

/-- generate_name only ever touches the country code, so the unique key is
untouched. -/
theorem generateName_key (lookup : String → Option String) (p : ProxyInfo) :
    ((generateName lookup p).1).uniqueKey = p.uniqueKey := by
  unfold generateName ProxyInfo.uniqueKey
  dsimp only
  split <;> rfl

/-- generate_name leaves every field but the country code unchanged. -/
theorem generateName_fields (lookup : String → Option String) (p : ProxyInfo) :
    (generateName lookup p).1.ip = p.ip ∧ (generateName lookup p).1.port = p.port
    ∧ (generateName lookup p).1.name = p.name ∧ (generateName lookup p).1.data = p.data
    ∧ (generateName lookup p).1.protocol = p.protocol
    ∧ (generateName lookup p).1.source = p.source := by
  unfold generateName
  dsimp only
  split <;> exact ⟨rfl, rfl, rfl, rfl, rfl, rfl⟩

/-- The update applied to an already-present record keeps the candidate's
unique key. -/
theorem mergeUpdate_key (cand old : ProxyInfo) :
    (mergeUpdate cand old).uniqueKey = cand.uniqueKey := by
  unfold mergeUpdate ProxyInfo.uniqueKey
  cases hn : old.name <;> dsimp only <;> first | rfl | (split <;> rfl)

/-- The record inserted for a new key keeps the candidate's unique key. -/
theorem mergeInsert_key (cand : ProxyInfo) :
    (mergeInsert cand).uniqueKey = cand.uniqueKey := by
  unfold mergeInsert ProxyInfo.uniqueKey
  cases hd : cand.data <;> dsimp only <;> first | rfl | (split <;> rfl)

/-- hasKey agrees with membership in the key list. -/
theorem hasKey_iff_mem (k : String) (m : List ProxyInfo) :
    hasKey k m = true ↔ k ∈ keysOf m := by
  induction m with
  | nil => simp [hasKey, keysOf]
  | cons q rest ih =>
    simp only [hasKey, keysOf, List.map_cons, List.mem_cons, Bool.or_eq_true,
      decide_eq_true_eq, ih]
    constructor
    · rintro (h | h)
      · exact Or.inl h.symm
      · exact Or.inr h
    · rintro (h | h)
      · exact Or.inl h.symm
      · exact Or.inr h

/-- A found key is a present key. -/
theorem hasKey_of_findKey (k : String) (m : List ProxyInfo) (e : ProxyInfo)
    (h : findKey k m = some e) : hasKey k m = true := by
  induction m with
  | nil => simp [findKey] at h
  | cons q rest ih =>
    unfold findKey at h
    by_cases hq : q.uniqueKey = k
    · simp [hasKey, hq]
    · rw [if_neg hq] at h
      simp [hasKey, hq, ih h]

/-- Modifying the stored record at a key (with a key-preserving update)
commutes with looking the key up. -/
theorem findKey_modifyAt (k : String) (f : ProxyInfo → ProxyInfo) (m : List ProxyInfo)
    (hf : ∀ q, q.uniqueKey = k → (f q).uniqueKey = k) :
    findKey k (modifyAt k f m) = (findKey k m).map f := by
  induction m with
  | nil => rfl
  | cons q rest ih =>
    by_cases hq : q.uniqueKey = k
    · simp only [modifyAt, findKey, if_pos hq, if_pos (hf q hq), Option.map_some']
    · simp only [modifyAt, findKey, if_neg hq, ih]

/-- A key-preserving in-place update leaves the key list unchanged. -/
theorem keysOf_modifyAt (k : String) (f : ProxyInfo → ProxyInfo) (m : List ProxyInfo)
    (hf : ∀ q, q.uniqueKey = k → (f q).uniqueKey = k) :
    keysOf (modifyAt k f m) = keysOf m := by
  induction m with
  | nil => rfl
  | cons q rest ih =>
    by_cases hq : q.uniqueKey = k
    · simp only [modifyAt, if_pos hq, keysOf, List.map_cons]
      rw [hf q hq, hq]
    · simp only [modifyAt, if_neg hq, keysOf, List.map_cons] at ih ⊢
      rw [ih]

/-- Dict assignment either keeps the key list (existing key) or appends the
new key. -/
theorem keysOf_upsert (m : List ProxyInfo) (p : ProxyInfo) :
    keysOf (seedMap.upsert m p)
      = if p.uniqueKey ∈ keysOf m then keysOf m else keysOf m ++ [p.uniqueKey] := by
  induction m with
  | nil => simp [seedMap.upsert, keysOf]
  | cons q rest ih =>
    by_cases hq : q.uniqueKey = p.uniqueKey
    · simp [seedMap.upsert, if_pos hq, keysOf, hq]
    · simp only [seedMap.upsert, if_neg hq, keysOf, List.map_cons, List.mem_cons] at ih ⊢
      by_cases hm : p.uniqueKey ∈ List.map ProxyInfo.uniqueKey rest
      · simp [hm, ih, Ne.symm hq]
      · simp [hm, ih, Ne.symm hq]

/-- The seed fold of merge_proxies produces a duplicate-free key list whose
members are the keys of the accumulator and of the seeded records. -/
theorem seedFold_keys : ∀ (S : List ProxyInfo) (m : List ProxyInfo),
    (keysOf m).Nodup →
    ((keysOf (S.foldl (fun acc p => seedMap.upsert acc p) m)).Nodup
      ∧ ∀ k, k ∈ keysOf (S.foldl (fun acc p => seedMap.upsert acc p) m)
          ↔ k ∈ keysOf m ∨ k ∈ keysOf S)
  | [], m, hm => ⟨hm, by simp [keysOf]⟩
  | p :: t, m, hm => by
    rw [List.foldl_cons]
    have hup := keysOf_upsert m p
    have hnodup : (keysOf (seedMap.upsert m p)).Nodup := by
      rw [hup]
      split_ifs with hmem
      · exact hm
      · simp [List.nodup_append, hm, hmem]
    obtain ⟨nd, hmem'⟩ := seedFold_keys t (seedMap.upsert m p) hnodup
    refine ⟨nd, fun k => ?_⟩
    rw [hmem' k, hup]
    simp only [keysOf, List.map_cons, List.mem_cons]
    split_ifs with hmem
    · constructor
      · rintro (hk | hk)
        · exact Or.inl hk
        · exact Or.inr (Or.inr hk)
      · rintro (hk | hk | hk)
        · exact Or.inl hk
        · exact Or.inl (hk ▸ hmem)
        · exact Or.inr hk
    · rw [List.mem_append]
      constructor
      · rintro ((hk | hk) | hk)
        · exact Or.inl hk
        · exact Or.inr (Or.inl (List.mem_singleton.mp hk))
        · exact Or.inr (Or.inr hk)
      · rintro (hk | hk | hk)
        · exact Or.inl (Or.inl hk)
        · exact Or.inl (Or.inr (List.mem_singleton.mpr hk))
        · exact Or.inr hk

/-- The seed map deduplicates: its key list is duplicate-free and carries
exactly the keys of the existing records. -/
theorem seedMap_keys (S : List ProxyInfo) :
    (keysOf (seedMap S)).Nodup ∧ ∀ k, k ∈ keysOf (seedMap S) ↔ k ∈ keysOf S := by
  have h := seedFold_keys S [] (by simp [keysOf])
  exact ⟨h.1, fun k => by simpa [keysOf] using h.2 k⟩

/-- One merge iteration either keeps the key list (key already present) or
appends the candidate's key. -/
theorem mergeStep_keys (lookup : String → Option String)
    (m : List ProxyInfo) (st : MergeStats) (c : ProxyInfo) :
    keysOf ((mergeStep lookup (m, st) c).1)
      = if c.uniqueKey ∈ keysOf m then keysOf m else keysOf m ++ [c.uniqueKey] := by
  unfold mergeStep
  dsimp only
  by_cases hk : hasKey c.uniqueKey m
  · rw [if_pos hk, if_pos ((hasKey_iff_mem _ _).mp hk)]
    dsimp only
    apply keysOf_modifyAt
    intro q _
    rw [mergeUpdate_key, generateName_key]
  · rw [if_neg hk, if_neg (fun hmem => hk ((hasKey_iff_mem _ _).mpr hmem))]
    dsimp only
    simp [keysOf, mergeInsert_key, generateName_key]

/-- Folding the merge keeps the key list duplicate-free and makes its
members exactly the accumulated and incoming keys. -/
theorem mergeFold_keys (lookup : String → Option String) :
    ∀ (l m : List ProxyInfo) (st : MergeStats),
    (keysOf m).Nodup →
    ((keysOf ((l.foldl (mergeStep lookup) (m, st)).1)).Nodup
      ∧ ∀ k, k ∈ keysOf ((l.foldl (mergeStep lookup) (m, st)).1)
          ↔ k ∈ keysOf m ∨ k ∈ keysOf l)
  | [], m, st, hm => ⟨hm, by simp [keysOf]⟩
  | c :: t, m, st, hm => by
    rw [List.foldl_cons]
    have hkeys := mergeStep_keys lookup m st c
    have hnodup : (keysOf ((mergeStep lookup (m, st) c).1)).Nodup := by
      rw [hkeys]
      split_ifs with hmem
      · exact hm
      · simp [List.nodup_append, hm, hmem]
    have hrec := mergeFold_keys lookup t (mergeStep lookup (m, st) c).1
      (mergeStep lookup (m, st) c).2 hnodup
    rw [Prod.mk.eta] at hrec
    refine ⟨hrec.1, fun k => ?_⟩
    rw [hrec.2 k, hkeys]
    simp only [keysOf, List.map_cons, List.mem_cons]
    split_ifs with hmem
    · constructor
      · rintro (hk | hk)
        · exact Or.inl hk
        · exact Or.inr (Or.inr hk)
      · rintro (hk | hk | hk)
        · exact Or.inl hk
        · exact Or.inl (hk ▸ hmem)
        · exact Or.inr hk
    · rw [List.mem_append]
      constructor
      · rintro ((hk | hk) | hk)
        · exact Or.inl hk
        · exact Or.inr (Or.inl (List.mem_singleton.mp hk))
        · exact Or.inr (Or.inr hk)
      · rintro (hk | hk | hk)
        · exact Or.inl (Or.inl hk)
        · exact Or.inl (Or.inr (List.mem_singleton.mpr hk))
        · exact Or.inr hk

/-- The merged list's key list is duplicate-free and carries exactly the
keys of the existing and incoming records. -/
theorem mergeProxies_keys (lookup : String → Option String) (E N : List ProxyInfo) :
    (keysOf (mergeProxies lookup E N).1).Nodup
    ∧ ∀ k, k ∈ keysOf (mergeProxies lookup E N).1 ↔ k ∈ keysOf E ∨ k ∈ keysOf N := by
  obtain ⟨nd, hm⟩ := seedMap_keys E
  have h := mergeFold_keys lookup N (seedMap E) { totalNewIncoming := N.length } nd
  unfold mergeProxies
  exact ⟨h.1, fun k => by rw [h.2 k, hm k]⟩

/-! ### Claim theorems -/

/-- C10: the shared VIP-cleanup function maps a non-empty name to a
non-empty string: when deleting all casing variants of VIP and stripping
the surrounding separator characters would leave the empty string, the
original name is returned unchanged instead. -/
theorem c10_clean_vip_nonempty (name : String) (h : name ≠ "") :
    cleanVip name ≠ "" ∧ (vipCleaned name = "" → cleanVip name = name) := by
  unfold cleanVip
  rw [if_neg h]
  constructor
  · split_ifs with h2
    · exact h2
    · exact h
  · intro h3
    split_ifs with h2
    · exact absurd h3 h2
    · rfl

/-- C10 witness: the name VIP survives cleanup as VIP. -/
theorem c10_witness :
    ("VIP" : String) ≠ "" ∧ cleanVip "VIP" ≠ "" ∧ cleanVip "VIP" = "VIP" :=
  ⟨by decide, (c10_clean_vip_nonempty "VIP" (by decide)).1,
    (c10_clean_vip_nonempty "VIP" (by decide)).2 (by decide)⟩

/-- C6: recording a sync result for a registered source sets its
last-sync timestamp to now and reschedules its next-sync timestamp to
now plus syncIntervalMinutes times sixty, for success and failure alike. -/
theorem c6_update_source_stats (reg : SourceReg) (name : String) (src : ProxySource)
    (success : Bool) (proxyCount : Nat) (now : ℚ)
    (h : findSource name reg = some src) :
    (findSource name (updateSourceStats name success proxyCount now reg)).map
        ProxySource.nextSyncTimestamp
      = some (some (now + src.syncIntervalMinutes * 60))
    ∧ (findSource name (updateSourceStats name success proxyCount now reg)).map
        ProxySource.lastSync
      = some (some now) := by
  induction reg with
  | nil => exact absurd h (by simp [findSource])
  | cons s rest ih =>
    unfold findSource at h
    unfold updateSourceStats
    by_cases hs : s.name = name
    · rw [if_pos hs] at h
      obtain rfl : s = src := Option.some.inj h
      rw [if_pos hs]
      cases success <;> simp [findSource, hs]
    · rw [if_neg hs] at h
      rw [if_neg hs]
      unfold findSource
      rw [if_neg hs]
      exact ih h

/-- C6 witness: a source with a sixty-minute interval that fails a sync at
time five is rescheduled to five plus thirty-six hundred, identical to what
a success would set. -/
theorem c6_witness :
    ((5 : ℚ) + (60 : Nat) * 60 = 3605)
    ∧ (findSource "src"
        (updateSourceStats "src" false 0 (5 : ℚ)
          [{ name := "src", url := "u", syncIntervalMinutes := 60 }])).map
        ProxySource.nextSyncTimestamp = some (some ((5 : ℚ) + (60 : Nat) * 60))
    ∧ (findSource "src"
        (updateSourceStats "src" true 7 (5 : ℚ)
          [{ name := "src", url := "u", syncIntervalMinutes := 60 }])).map
        ProxySource.nextSyncTimestamp = some (some ((5 : ℚ) + (60 : Nat) * 60)) :=
  ⟨by norm_num,
    (c6_update_source_stats [{ name := "src", url := "u", syncIntervalMinutes := 60 }]
      "src" { name := "src", url := "u", syncIntervalMinutes := 60 } false 0 5
      (by simp [findSource])).1,
    (c6_update_source_stats [{ name := "src", url := "u", syncIntervalMinutes := 60 }]
      "src" { name := "src", url := "u", syncIntervalMinutes := 60 } true 7 5
      (by simp [findSource])).1⟩

/-- C9: every merge counts each incoming record exactly once, so the added
and updated counters sum to the total-incoming counter, which is the length
of the incoming list. -/
theorem c9_added_updated_total (lookup : String → Option String)
    (existing new : List ProxyInfo) :
    (mergeProxies lookup existing new).2.added
        + (mergeProxies lookup existing new).2.updated
      = (mergeProxies lookup existing new).2.totalNewIncoming
    ∧ (mergeProxies lookup existing new).2.totalNewIncoming = new.length := by
  unfold mergeProxies
  refine ⟨?_, ?_⟩
  · rw [mergeFold_added_updated, mergeFold_total]
    simp
  · rw [mergeFold_total]

/-- C4 (amended): on text reaching the mixed-content frequency scan (no
scheme prefix at the start, no YAML heuristic match), detect returns the
highest-PRIORITY protocol with a positive occurrence count, in the order
VLESS, VMess, Trojan, SSR, SS, Hysteria2, regardless of which count is
largest; Unknown is returned exactly when all six counts are zero (the ss
count being the boundary-anchored ss matches minus the vless, vmess and
ssr matches). -/
theorem c4_priority_over_frequency (content : String)
    (h1 : prefixDetect (pyStrip (tryB64Decode content)) = Option.none)
    (h2 : yamlHeur (pyStrip (tryB64Decode content)) = false) :
    (detectProtocol content = ProtocolType.unknown ↔
      ((countOcc "vless://" (pyStrip (tryB64Decode content)) : Int) = 0
        ∧ (countOcc "vmess://" (pyStrip (tryB64Decode content)) : Int) = 0
        ∧ (countOcc "trojan://" (pyStrip (tryB64Decode content)) : Int) = 0
        ∧ (countOcc "ssr://" (pyStrip (tryB64Decode content)) : Int) = 0
        ∧ (countOcc "ss://" (pyStrip (tryB64Decode content)) : Int)
            - ((countOcc "vless://" (pyStrip (tryB64Decode content)) : Int)
              + (countOcc "vmess://" (pyStrip (tryB64Decode content)) : Int)
              + (countOcc "ssr://" (pyStrip (tryB64Decode content)) : Int)) = 0
        ∧ (countOcc "hy2://" (pyStrip (tryB64Decode content)) : Int)
            + (countOcc "hysteria2://" (pyStrip (tryB64Decode content)) : Int) = 0))
    ∧ (detectProtocol content = ProtocolType.vless ↔
        0 < (countOcc "vless://" (pyStrip (tryB64Decode content)) : Int))
    ∧ (detectProtocol content = ProtocolType.vmess ↔
        ((countOcc "vless://" (pyStrip (tryB64Decode content)) : Int) ≤ 0
          ∧ 0 < (countOcc "vmess://" (pyStrip (tryB64Decode content)) : Int)))
    ∧ (detectProtocol content = ProtocolType.trojan ↔
        ((countOcc "vless://" (pyStrip (tryB64Decode content)) : Int) ≤ 0
          ∧ (countOcc "vmess://" (pyStrip (tryB64Decode content)) : Int) ≤ 0
          ∧ 0 < (countOcc "trojan://" (pyStrip (tryB64Decode content)) : Int)))
    ∧ (detectProtocol content = ProtocolType.ssr ↔
        ((countOcc "vless://" (pyStrip (tryB64Decode content)) : Int) ≤ 0
          ∧ (countOcc "vmess://" (pyStrip (tryB64Decode content)) : Int) ≤ 0
          ∧ (countOcc "trojan://" (pyStrip (tryB64Decode content)) : Int) ≤ 0
          ∧ 0 < (countOcc "ssr://" (pyStrip (tryB64Decode content)) : Int)))
    ∧ (detectProtocol content = ProtocolType.ss ↔
        ((countOcc "vless://" (pyStrip (tryB64Decode content)) : Int) ≤ 0
          ∧ (countOcc "vmess://" (pyStrip (tryB64Decode content)) : Int) ≤ 0
          ∧ (countOcc "trojan://" (pyStrip (tryB64Decode content)) : Int) ≤ 0
          ∧ (countOcc "ssr://" (pyStrip (tryB64Decode content)) : Int) ≤ 0
          ∧ 0 < (countOcc "ss://" (pyStrip (tryB64Decode content)) : Int)
              - ((countOcc "vless://" (pyStrip (tryB64Decode content)) : Int)
                + (countOcc "vmess://" (pyStrip (tryB64Decode content)) : Int)
                + (countOcc "ssr://" (pyStrip (tryB64Decode content)) : Int))))
    ∧ (detectProtocol content = ProtocolType.hy2 ↔
        ((countOcc "vless://" (pyStrip (tryB64Decode content)) : Int) ≤ 0
          ∧ (countOcc "vmess://" (pyStrip (tryB64Decode content)) : Int) ≤ 0
          ∧ (countOcc "trojan://" (pyStrip (tryB64Decode content)) : Int) ≤ 0
          ∧ (countOcc "ssr://" (pyStrip (tryB64Decode content)) : Int) ≤ 0
          ∧ (countOcc "ss://" (pyStrip (tryB64Decode content)) : Int)
              - ((countOcc "vless://" (pyStrip (tryB64Decode content)) : Int)
                + (countOcc "vmess://" (pyStrip (tryB64Decode content)) : Int)
                + (countOcc "ssr://" (pyStrip (tryB64Decode content)) : Int)) ≤ 0
          ∧ 0 < (countOcc "hy2://" (pyStrip (tryB64Decode content)) : Int)
              + (countOcc "hysteria2://" (pyStrip (tryB64Decode content)) : Int))) := by
  simp only [detectProtocol, detectBody, h1, h2, Bool.false_eq_true, if_false,
    freqDetect, schemeCounts, freqSelect_eq_chain]
  split_ifs <;> simp <;> omega

/-- C4 witness: plain prose reaches the scan with all counts zero and is
classified Unknown. -/
theorem c4_witness :
    detectProtocol "nothing here" = ProtocolType.unknown ↔
      ((countOcc "vless://" (pyStrip (tryB64Decode "nothing here")) : Int) = 0
        ∧ (countOcc "vmess://" (pyStrip (tryB64Decode "nothing here")) : Int) = 0
        ∧ (countOcc "trojan://" (pyStrip (tryB64Decode "nothing here")) : Int) = 0
        ∧ (countOcc "ssr://" (pyStrip (tryB64Decode "nothing here")) : Int) = 0
        ∧ (countOcc "ss://" (pyStrip (tryB64Decode "nothing here")) : Int)
            - ((countOcc "vless://" (pyStrip (tryB64Decode "nothing here")) : Int)
              + (countOcc "vmess://" (pyStrip (tryB64Decode "nothing here")) : Int)
              + (countOcc "ssr://" (pyStrip (tryB64Decode "nothing here")) : Int)) = 0
        ∧ (countOcc "hy2://" (pyStrip (tryB64Decode "nothing here")) : Int)
            + (countOcc "hysteria2://" (pyStrip (tryB64Decode "nothing here")) : Int) = 0) :=
  (c4_priority_over_frequency "nothing here" (by decide) (by decide)).1

/-- C4 counterexample: an input reaching the frequency scan whose trojan
count (two) strictly exceeds every other count, yet detect returns VMess
because VMess precedes Trojan in the priority order and its count (one) is
positive. -/
theorem c4_counterexample :
    prefixDetect (pyStrip (tryB64Decode "x vmess://a trojan://b trojan://c")) = Option.none
    ∧ yamlHeur (pyStrip (tryB64Decode "x vmess://a trojan://b trojan://c")) = false
    ∧ schemeCounts (pyStrip (tryB64Decode "x vmess://a trojan://b trojan://c"))
        = (0, 1, 2, 0, -1, 0)
    ∧ detectProtocol "x vmess://a trojan://b trojan://c" = ProtocolType.vmess
    ∧ ProtocolType.vmess ≠ ProtocolType.trojan := by decide

/-- C2: merging is key-stable: after merging S with A and the result with
B, the merged list holds exactly one record per unique key occurring in S,
A or B, and none for any other key; in particular no key ever appears
twice. -/
theorem c2_merge_key_stable (lookup1 lookup2 : String → Option String)
    (S A B : List ProxyInfo) (k : String) :
    List.count k (keysOf (mergeProxies lookup2 (mergeProxies lookup1 S A).1 B).1)
      = if k ∈ keysOf S ∨ k ∈ keysOf A ∨ k ∈ keysOf B then 1 else 0 := by
  have hA := mergeProxies_keys lookup1 S A
  have hB := mergeProxies_keys lookup2 (mergeProxies lookup1 S A).1 B
  have hmem : k ∈ keysOf (mergeProxies lookup2 (mergeProxies lookup1 S A).1 B).1
      ↔ (k ∈ keysOf S ∨ k ∈ keysOf A) ∨ k ∈ keysOf B := by
    rw [hB.2 k, hA.2 k]
  by_cases hk : k ∈ keysOf S ∨ k ∈ keysOf A ∨ k ∈ keysOf B
  · rw [if_pos hk]
    exact List.count_eq_one_of_mem hB.1 (hmem.mpr (by tauto))
  · rw [if_neg hk]
    exact List.count_eq_zero.mpr (fun hcon => hk (by have := hmem.mp hcon; tauto))

/-- The update merge_proxies applies to an already-present record, spelled
out field by field: a truthy stored name survives, everything else comes
from the resolved candidate, and a truthy candidate data dict that carries
a name entry gets that entry rewritten to the surviving name. -/
theorem mergeUpdate_fields (cand old : ProxyInfo) (n : String)
    (hn : old.name = some n) (hne : n ≠ "") :
    (mergeUpdate cand old).name = some n
    ∧ (mergeUpdate cand old).ip = cand.ip
    ∧ (mergeUpdate cand old).port = cand.port
    ∧ (mergeUpdate cand old).countryCode = cand.countryCode
    ∧ (mergeUpdate cand old).protocol = cand.protocol
    ∧ (mergeUpdate cand old).source = cand.source
    ∧ (mergeUpdate cand old).data
        = (match cand.data with
           | some d => if d ≠ [] && pdHasKey "name" d
               then some (pdPut "name" (PyVal.str n) d) else some d
           | Option.none => Option.none) := by
  unfold mergeUpdate
  rw [hn]
  dsimp only
  rw [if_pos hne]
  exact ⟨rfl, rfl, rfl, rfl, rfl, rfl, rfl⟩

/-- C1 (amended): when the existing store holds a record at the incoming
record's key with a truthy name, the merge keeps that name, takes protocol,
source and the lookup-resolved country code from the incoming record,
takes the data dict from the incoming record except that a name entry in a
truthy incoming dict is rewritten to the preserved name, and counts the
key as updated, not added. -/
theorem c1_merge_preserves_name (S : List ProxyInfo) (c : ProxyInfo)
    (lookup : String → Option String) (e : ProxyInfo) (n : String)
    (hfind : findKey c.uniqueKey (seedMap S) = some e)
    (hname : e.name = some n) (hne : n ≠ "") :
    (findKey c.uniqueKey (mergeProxies lookup S [c]).1).map ProxyInfo.name
        = some (some n)
    ∧ (findKey c.uniqueKey (mergeProxies lookup S [c]).1).map ProxyInfo.protocol
        = some c.protocol
    ∧ (findKey c.uniqueKey (mergeProxies lookup S [c]).1).map ProxyInfo.source
        = some c.source
    ∧ (findKey c.uniqueKey (mergeProxies lookup S [c]).1).map ProxyInfo.countryCode
        = some ((generateName lookup c).1.countryCode)
    ∧ (findKey c.uniqueKey (mergeProxies lookup S [c]).1).map ProxyInfo.data
        = some (match c.data with
           | some d => if d ≠ [] && pdHasKey "name" d
               then some (pdPut "name" (PyVal.str n) d) else some d
           | Option.none => Option.none)
    ∧ (mergeProxies lookup S [c]).2.added = 0
    ∧ (mergeProxies lookup S [c]).2.updated = 1 := by
  obtain ⟨gip, gport, gname, gdata, gproto, gsource⟩ := generateName_fields lookup c
  have hkey : hasKey c.uniqueKey (seedMap S) = true :=
    hasKey_of_findKey c.uniqueKey (seedMap S) e hfind
  have hstep : mergeProxies lookup S [c]
      = mergeStep lookup (seedMap S, { totalNewIncoming := 1 }) c := by
    unfold mergeProxies
    rfl
  rw [hstep]
  unfold mergeStep
  dsimp only
  rw [if_pos hkey]
  dsimp only
  have hfmod : findKey c.uniqueKey
      (modifyAt c.uniqueKey (mergeUpdate (generateName lookup c).1) (seedMap S))
      = some (mergeUpdate (generateName lookup c).1 e) := by
    rw [findKey_modifyAt c.uniqueKey _ (seedMap S)
      (fun q _ => by rw [mergeUpdate_key, generateName_key]), hfind, Option.map_some']
  obtain ⟨f1, _, _, f4, f5, f6, f7⟩ :=
    mergeUpdate_fields (generateName lookup c).1 e n hname hne
  rw [hfmod]
  refine ⟨?_, ?_, ?_, ?_, ?_, ?_, ?_⟩
  · rw [Option.map_some', f1]
  · rw [Option.map_some', f5, gproto]
  · rw [Option.map_some', f6, gsource]
  · rw [Option.map_some', f4]
  · rw [Option.map_some', f7, gdata]
  · cases hp : c.protocol <;> by_cases hs : truthyStr c.source <;> simp [hp, hs]
  · cases hp : c.protocol <;> by_cases hs : truthyStr c.source <;> simp [hp, hs]

/-- C1 witness (Scenario 5): merging an existing record named Old with an
incoming record of the same key and empty name yields stats added zero,
updated one, and the merged name Old. -/
theorem c1_witness :
    (findKey (ProxyInfo.uniqueKey { ip := "1.1.1.1", port := 443, name := some "" })
        (mergeProxies (fun _ => Option.none)
          [{ ip := "1.1.1.1", port := 443, name := some "Old" }]
          [{ ip := "1.1.1.1", port := 443, name := some "" }]).1).map ProxyInfo.name
      = some (some "Old")
    ∧ (mergeProxies (fun _ => Option.none)
        [{ ip := "1.1.1.1", port := 443, name := some "Old" }]
        [{ ip := "1.1.1.1", port := 443, name := some "" }]).2.added = 0
    ∧ (mergeProxies (fun _ => Option.none)
        [{ ip := "1.1.1.1", port := 443, name := some "Old" }]
        [{ ip := "1.1.1.1", port := 443, name := some "" }]).2.updated = 1 :=
  have h := c1_merge_preserves_name
    [{ ip := "1.1.1.1", port := 443, name := some "Old" }]
    { ip := "1.1.1.1", port := 443, name := some "" }
    (fun _ => Option.none)
    { ip := "1.1.1.1", port := 443, name := some "Old" } "Old"
    (by decide) (by decide) (by decide)
  ⟨h.1, h.2.2.2.2.2.1, h.2.2.2.2.2.2⟩

/-- C1 counterexample: with a truthy existing name, the merged record's
data dict is NOT the incoming one whenever the incoming dict carries a
name entry: that entry is rewritten to the preserved name. -/
theorem c1_counterexample :
    (mergeProxies (fun _ => Option.none)
        [{ ip := "1.1.1.1", port := 443, name := some "Old" }]
        [{ ip := "1.1.1.1", port := 443, name := some "",
           data := some [("name", PyVal.str ""), ("cipher", PyVal.str "x")] }]).1.map
      ProxyInfo.data
      = [some [("name", PyVal.str "Old"), ("cipher", PyVal.str "x")]]
    ∧ (some [("name", PyVal.str "Old"), ("cipher", PyVal.str "x")] : Option PyDict)
      ≠ some [("name", PyVal.str ""), ("cipher", PyVal.str "x")] := by decide

/-- C3: the SS decoder fails on the spec's Scenario 1 input: the base64
decode of the whole body (padding appended) stops at the embedded padding,
yielding a plaintext with no at-sign, so the decoder returns none instead
of the claimed record. -/
theorem c3_scenario1_fails :
    parseSsUrl "ss://YWVzLTI1Ni1nY206cGFzcw==@1.2.3.4:8388#MyNode" = Option.none
    ∧ b64ToStr pyB64Decode ("YWVzLTI1Ni1nY206cGFzcw==@1.2.3.4:8388".data ++ ['=', '='])
        = some "aes-256-gcm:pass" := by decide

/-- C5 (amended): for every SS URL of the form ss:// body # fragment (with
the hash absent from the body and the fragment non-empty) whose decode
succeeds, the decoded record's name is exactly the percent-decoded,
VIP-stripped fragment.  The SSR decoder, by contrast, ignores fragments and
derives its name from the remarks parameter (see the counterexample). -/
theorem c5_ss_name_from_fragment (body frag : List Char)
    (hb : '#' ∉ body) (hf : frag ≠ []) (r : SSConf)
    (h : parseSsUrl ⟨"ss://".data ++ body ++ '#' :: frag⟩ = some r) :
    r.name = cleanVip (pyUnquote ⟨frag⟩) := by
  unfold parseSsUrl at h
  have hstart : pyStarts ⟨"ss://".data ++ body ++ '#' :: frag⟩ "ss://" = true := by
    unfold pyStarts startsL
    rw [List.isPrefixOf_iff_prefix]
    exact ⟨body ++ '#' :: frag, by simp⟩
  rw [hstart] at h
  simp only [Bool.not_true, if_false] at h
  have hdrop : (String.mk ("ss://".data ++ body ++ '#' :: frag)).data.drop 5
      = body ++ '#' :: frag := by
    show (("ss://".data ++ body ++ '#' :: frag).drop 5) = body ++ '#' :: frag
    rw [List.append_assoc]
    exact List.drop_left "ss://".data (body ++ '#' :: frag)
  rw [hdrop, splitFirstChar_append '#' body frag hb] at h
  dsimp only at h
  repeat' split at h
  all_goals first
  | exact (Option.some.inj h).symm ▸ rfl
  | exact absurd h (by simp)

/-- C5 witness: a legacy-format SS URL (whole body one base64 blob) with
fragment MyNode decodes, and its name is the cleaned fragment. -/
theorem c5_witness :
    ('#' ∉ "YWVzLTI1Ni1nY206cGFzc0AxLjIuMy40OjgzODg=".data)
    ∧ ("MyNode".data ≠ [])
    ∧ parseSsUrl ⟨"ss://".data ++ "YWVzLTI1Ni1nY206cGFzc0AxLjIuMy40OjgzODg=".data
          ++ '#' :: "MyNode".data⟩
        = some { name := "MyNode", server := "1.2.3.4", port := 8388,
                 cipher := "aes-256-gcm", password := "pass" }
    ∧ ({ name := "MyNode", server := "1.2.3.4", port := 8388,
         cipher := "aes-256-gcm", password := "pass" : SSConf }).name
        = cleanVip (pyUnquote ⟨"MyNode".data⟩) :=
  ⟨by decide, by decide, by decide,
    c5_ss_name_from_fragment "YWVzLTI1Ni1nY206cGFzc0AxLjIuMy40OjgzODg=".data
      "MyNode".data (by decide) (by decide)
      { name := "MyNode", server := "1.2.3.4", port := 8388,
        cipher := "aes-256-gcm", password := "pass" } (by decide)⟩

/-- C5 counterexample: a valid SSR URL carrying the non-empty fragment
equals-sign decodes successfully, but its name is the remarks default
SSR节点, not the percent-decoded VIP-stripped fragment. -/
theorem c5_counterexample :
    parseSsrUrl "ssr://MS4yLjMuNDo4Mzg4Om9yaWdpbjphZXMtMTI4LWdjbTpwbGFpbjpjR0Z6YzNN#="
      = some { name := "SSR节点", server := "1.2.3.4", port := 8388,
               cipher := "aes-128-gcm", password := "passs", protoName := "origin",
               obfs := "plain", protoParam := "", obfsParam := "", group := "" }
    ∧ cleanVip (pyUnquote "=") = "="
    ∧ ("SSR节点" : String) ≠ "=" := by decide

/-- C7 (amended): detection is stable under one more round of base64
normalization exactly when normalization has reached a fixed point of
tryDecode at the input. -/
theorem c7_detect_after_fixed_point (content : String)
    (h : tryB64Decode (tryB64Decode content) = tryB64Decode content) :
    detectProtocol content = detectProtocol (tryB64Decode content) := by
  unfold detectProtocol
  rw [h]

/-- C7 witness: plain text that no decode attempt touches. -/
theorem c7_witness :
    tryB64Decode (tryB64Decode "hello") = tryB64Decode "hello"
    ∧ detectProtocol "hello" = detectProtocol (tryB64Decode "hello") :=
  ⟨by decide, c7_detect_after_fixed_point "hello" (by decide)⟩

/-- C7 counterexample: a base64 blob whose decoded text both carries an ss
link and itself base64-decodes (stopping at its embedded padding) to a
vmess link, so detect changes across one application of tryDecode. -/
theorem c7_counterexample :
    detectProtocol "ZG0xbGMzTTZMeTlyYXc9PSBzczovL2E=" = ProtocolType.ss
    ∧ detectProtocol (tryB64Decode "ZG0xbGMzTTZMeTlyYXc9PSBzczovL2E=") = ProtocolType.vmess
    ∧ ProtocolType.ss ≠ ProtocolType.vmess := by decide

/-- C8 (amended): when no decode attempt qualifies, try_base64_decode
returns the input stripped of surrounding whitespace (not the input
itself). -/
theorem c8_returns_stripped (content : String)
    (h : firstQualify (pyStrip content).data = Option.none) :
    tryB64Decode content = pyStrip content := by
  simp only [tryB64Decode, h]

/-- C8 witness: no attempt qualifies on a plain word, and the stripped
input comes back. -/
theorem c8_witness :
    firstQualify (pyStrip " hello ").data = Option.none
    ∧ tryB64Decode " hello " = pyStrip " hello " :=
  ⟨by decide, c8_returns_stripped " hello " (by decide)⟩

/-- C8 counterexample: an input with surrounding whitespace on which no
attempt qualifies is returned stripped, not unchanged. -/
theorem c8_counterexample :
    firstQualify (pyStrip " a ").data = Option.none
    ∧ tryB64Decode " a " = "a"
    ∧ ("a" : String) ≠ " a " := by decide

end ProxySync
